import Mathlib

/-
  Verification development for the MSP billing platform.

  Part 1 embeds the invoice email job pipeline
  (InvoiceEmailHandler.handle, src/tools/ai-automation/web/src/app/page.tsx):
  external collaborators become an explicit environment of functions,
  thrown errors become Except / Option String error messages, the shared
  job record becomes an ordered trace of status updates, and the
  filesystem of temporary files becomes a Finset of paths.  Strings that
  are falsy in the source (undefined or empty) are modelled as "".

  Part 2 models the invoice generation engine (generateInvoice,
  finalizeInvoice); its implementation is not part of the inspected
  sources, so it is modelled from the specification and from the exact
  messages asserted by src/server/src/test/infrastructure/billingInvoiceGeneration.test.ts.
-/

namespace Pipeline

/-- Invoice details as returned by getInvoiceForRendering; an empty
invoice_number models a missing (falsy) invoice number. -/
structure InvoiceDetail where
  invoice_number : String
  company_id : String
deriving DecidableEq, Repr

/-- Contact as returned by ContactModel.get. -/
structure Contact where
  email : String
  full_name : String
deriving DecidableEq, Repr

/-- Company as returned by getCompanyById; empty strings model absent
(falsy) fields. -/
structure Company where
  company_name : String
  email : String
  billing_contact_id : String
  billing_email : String
  address : String
deriving DecidableEq, Repr

/-- Status carried by one step result: started or completed. -/
inductive StepPhase
  | started
  | completed
deriving DecidableEq, Repr

/-- The JobStepResult payload built by the handler. -/
structure StepResult where
  step : String
  phase : StepPhase
  invoiceId : String
  details : String
  file_id : Option String
  recipientEmail : Option String
deriving DecidableEq, Repr

/-- Job status values used by updateJobStatus. -/
inductive JobStatus
  | Processing
  | Completed
  | Failed
deriving DecidableEq, Repr

/-- One call to jobService.updateJobStatus, in emission order. -/
structure Update where
  jobId : String
  tenant : String
  pgBossJobId : String
  status : JobStatus
  stepResult : Option StepResult
  errorMsg : Option String
  detailsMsg : Option String
deriving DecidableEq, Repr

/-- The external collaborators of the handler.  Option models a lookup
that may return nothing; Except models a call that may throw, carrying
the thrown message. -/
structure Env where
  getInvoice : String → Option InvoiceDetail
  getCompany : String → Option Company
  getContact : String → Option Contact
  generatePdf : String → String → Except String String
  downloadFile : String → Except String Unit
  sendInvoiceEmail : String → String → Except String Bool

/-- Result of a fragment of the run: emitted updates, temporary files
created, filesystem afterwards, clock afterwards, and the pending thrown
error if any. -/
structure LoopOut where
  trace : List Update
  created : List String
  fs : Finset String
  clock : Nat
  err : Option String

/-- Recipient email and name resolution, exactly as in the handler:
the company general email and name are the defaults; a set
billing_contact_id whose contact resolves overrides both; only when
billing_contact_id is not set does a nonempty billing_email override the
email. -/
def resolveRecipient (env : Env) (company : Company) : String × String :=
  if company.billing_contact_id ≠ "" then
    match env.getContact company.billing_contact_id with
    | some contact => (contact.email, contact.full_name)
    | none => (company.email, company.company_name)
  else if company.billing_email ≠ "" then
    (company.billing_email, company.company_name)
  else
    (company.email, company.company_name)

/-- Temporary file path built by the handler; the clock stands for
Date.now(). -/
def tmpName (invoiceNumber : String) (clock : Nat) : String :=
  "/tmp/invoice_" ++ invoiceNumber ++ "_" ++ toString clock ++ ".pdf"

/-- The contextual error message built in the per-invoice catch block. -/
def contextualMessage (invoiceNumber companyName errMsg : String) : String :=
  "Failed to process Invoice #" ++ invoiceNumber ++ " for " ++ companyName ++ ": " ++ errMsg

/-- Step result payload of pdfStartResult. -/
def pdfStartStep (pt invoiceId n cname : String) : StepResult :=
  { step := pt, phase := .started, invoiceId := invoiceId,
    details := "Generating PDF for Invoice #" ++ n ++ " (" ++ cname ++ ")",
    file_id := none, recipientEmail := none }

/-- pdfStartResult update. -/
def pdfStartResult (jobId tenant pgJob pt invoiceId n cname : String) : Update :=
  { jobId := jobId, tenant := tenant, pgBossJobId := pgJob, status := .Processing,
    stepResult := some (pdfStartStep pt invoiceId n cname),
    errorMsg := none, detailsMsg := none }

/-- Step result payload of pdfCompleteResult, carrying the artifact handle. -/
def pdfCompleteStep (pt invoiceId n cname fid : String) : StepResult :=
  { step := pt, phase := .completed, invoiceId := invoiceId,
    details := "Generated PDF for Invoice #" ++ n ++ " (" ++ cname ++ ")",
    file_id := some fid, recipientEmail := none }

/-- pdfCompleteResult update. -/
def pdfCompleteResult (jobId tenant pgJob pt invoiceId n cname fid : String) : Update :=
  { jobId := jobId, tenant := tenant, pgBossJobId := pgJob, status := .Processing,
    stepResult := some (pdfCompleteStep pt invoiceId n cname fid),
    errorMsg := none, detailsMsg := none }

/-- Step result payload of emailStartResult. -/
def emailStartStep (et invoiceId n rName rEmail cname : String) : StepResult :=
  { step := et, phase := .started, invoiceId := invoiceId,
    details := "Sending Invoice #" ++ n ++ " to " ++ rName ++ " (" ++ rEmail ++ ") at " ++ cname,
    file_id := none, recipientEmail := none }

/-- emailStartResult update. -/
def emailStartResult (jobId tenant pgJob et invoiceId n rName rEmail cname : String) : Update :=
  { jobId := jobId, tenant := tenant, pgBossJobId := pgJob, status := .Processing,
    stepResult := some (emailStartStep et invoiceId n rName rEmail cname),
    errorMsg := none, detailsMsg := none }

/-- Step result payload of emailCompleteResult, carrying the resolved recipient. -/
def emailCompleteStep (et invoiceId n rName rEmail cname : String) : StepResult :=
  { step := et, phase := .completed, invoiceId := invoiceId,
    details := "Successfully sent Invoice #" ++ n ++ " to " ++ rName ++ " at " ++ cname,
    file_id := none, recipientEmail := some rEmail }

/-- emailCompleteResult update. -/
def emailCompleteResult (jobId tenant pgJob et invoiceId n rName rEmail cname : String) : Update :=
  { jobId := jobId, tenant := tenant, pgBossJobId := pgJob, status := .Processing,
    stepResult := some (emailCompleteStep et invoiceId n rName rEmail cname),
    errorMsg := none, detailsMsg := none }

/-- The Failed update emitted by the per-invoice catch block: it
re-fetches the invoice and company and falls back to the invoice id and
to the name Unknown Company when they do not resolve. -/
def innerFailUpdate (env : Env) (jobId tenant pgJob invoiceId errMsg : String) : Update :=
  let inv := env.getInvoice invoiceId
  let comp := match inv with
    | some i => env.getCompany i.company_id
    | none => none
  let n := match inv with
    | some i => if i.invoice_number = "" then invoiceId else i.invoice_number
    | none => invoiceId
  let cname := match comp with
    | some c => if c.company_name = "" then "Unknown Company" else c.company_name
    | none => "Unknown Company"
  { jobId := jobId, tenant := tenant, pgBossJobId := pgJob, status := .Failed,
    stepResult := none, errorMsg := some (contextualMessage n cname errMsg),
    detailsMsg := none }

/-- The body of the per-invoice try block: fetch invoice and company,
emit pdf start, render the PDF, emit pdf complete, resolve the
recipient, emit email start, download the artifact, write the temporary
file, send the email inside try/finally (the finally always erases the
temporary file, on the throwing, the unsuccessful and the successful
send alike), emit email complete.  pdfTy and emailTy are steps[2i].type
and steps[2i+1].type; none models an out-of-range index, whose .type
access throws. -/
def processBody (env : Env) (jobId tenant pgJob invoiceId : String)
    (pdfTy emailTy : Option String) (fs : Finset String) (clock : Nat) : LoopOut :=
  match env.getInvoice invoiceId with
  | none => ⟨[], [], fs, clock, some ("Failed to get details for Invoice ID " ++ invoiceId)⟩
  | some inv =>
    if inv.invoice_number = "" then
      ⟨[], [], fs, clock, some ("Failed to get details for Invoice ID " ++ invoiceId)⟩
    else
      match env.getCompany inv.company_id with
      | none => ⟨[], [], fs, clock, some ("Company not found for Invoice #" ++ inv.invoice_number)⟩
      | some company =>
        match pdfTy with
        | none => ⟨[], [], fs, clock, some "Cannot read properties of undefined"⟩
        | some pt =>
          match env.generatePdf invoiceId inv.invoice_number with
          | .error m =>
            ⟨[pdfStartResult jobId tenant pgJob pt invoiceId inv.invoice_number company.company_name],
              [], fs, clock, some m⟩
          | .ok fid =>
            if (resolveRecipient env company).1 = "" then
              ⟨[pdfStartResult jobId tenant pgJob pt invoiceId inv.invoice_number company.company_name,
                pdfCompleteResult jobId tenant pgJob pt invoiceId inv.invoice_number company.company_name fid],
                [], fs, clock,
                some ("No valid email address found for " ++ company.company_name ++
                  " (Invoice #" ++ inv.invoice_number ++ ")")⟩
            else
              match emailTy with
              | none =>
                ⟨[pdfStartResult jobId tenant pgJob pt invoiceId inv.invoice_number company.company_name,
                  pdfCompleteResult jobId tenant pgJob pt invoiceId inv.invoice_number company.company_name fid],
                  [], fs, clock, some "Cannot read properties of undefined"⟩
              | some et =>
                match env.downloadFile fid with
                | .error m =>
                  ⟨[pdfStartResult jobId tenant pgJob pt invoiceId inv.invoice_number company.company_name,
                    pdfCompleteResult jobId tenant pgJob pt invoiceId inv.invoice_number company.company_name fid,
                    emailStartResult jobId tenant pgJob et invoiceId inv.invoice_number
                      (resolveRecipient env company).2 (resolveRecipient env company).1 company.company_name],
                    [], fs, clock, some m⟩
                | .ok _ =>
                  match env.sendInvoiceEmail invoiceId (resolveRecipient env company).1 with
                  | .error m =>
                    ⟨[pdfStartResult jobId tenant pgJob pt invoiceId inv.invoice_number company.company_name,
                      pdfCompleteResult jobId tenant pgJob pt invoiceId inv.invoice_number company.company_name fid,
                      emailStartResult jobId tenant pgJob et invoiceId inv.invoice_number
                        (resolveRecipient env company).2 (resolveRecipient env company).1 company.company_name],
                      [tmpName inv.invoice_number clock],
                      (insert (tmpName inv.invoice_number clock) fs).erase (tmpName inv.invoice_number clock),
                      clock + 1, some m⟩
                  | .ok false =>
                    ⟨[pdfStartResult jobId tenant pgJob pt invoiceId inv.invoice_number company.company_name,
                      pdfCompleteResult jobId tenant pgJob pt invoiceId inv.invoice_number company.company_name fid,
                      emailStartResult jobId tenant pgJob et invoiceId inv.invoice_number
                        (resolveRecipient env company).2 (resolveRecipient env company).1 company.company_name],
                      [tmpName inv.invoice_number clock],
                      (insert (tmpName inv.invoice_number clock) fs).erase (tmpName inv.invoice_number clock),
                      clock + 1, some "Failed to send invoice email"⟩
                  | .ok true =>
                    ⟨[pdfStartResult jobId tenant pgJob pt invoiceId inv.invoice_number company.company_name,
                      pdfCompleteResult jobId tenant pgJob pt invoiceId inv.invoice_number company.company_name fid,
                      emailStartResult jobId tenant pgJob et invoiceId inv.invoice_number
                        (resolveRecipient env company).2 (resolveRecipient env company).1 company.company_name,
                      emailCompleteResult jobId tenant pgJob et invoiceId inv.invoice_number
                        (resolveRecipient env company).2 (resolveRecipient env company).1 company.company_name],
                      [tmpName inv.invoice_number clock],
                      (insert (tmpName inv.invoice_number clock) fs).erase (tmpName inv.invoice_number clock),
                      clock + 1, none⟩

/-- One loop iteration: the try body followed by the catch block, which
on an error appends the contextual Failed update and rethrows the
original error. -/
def processOne (env : Env) (jobId tenant pgJob invoiceId : String)
    (pdfTy emailTy : Option String) (fs : Finset String) (clock : Nat) : LoopOut :=
  let b := processBody env jobId tenant pgJob invoiceId pdfTy emailTy fs clock
  match b.err with
  | none => b
  | some m => { b with trace := b.trace ++ [innerFailUpdate env jobId tenant pgJob invoiceId m] }

/-- The per-invoice loop: invoice i uses steps[2i] and steps[2i+1]; a
pending error stops the loop. -/
def runLoop (env : Env) (jobId tenant pgJob : String) :
    List String → List String → Finset String → Nat → LoopOut
  | [], _, fs, clock => ⟨[], [], fs, clock, none⟩
  | invoiceId :: rest, steps, fs, clock =>
    let o := processOne env jobId tenant pgJob invoiceId steps[0]? steps[1]? fs clock
    match o.err with
    | some _ => o
    | none =>
      let o2 := runLoop env jobId tenant pgJob rest (steps.drop 2) o.fs o.clock
      ⟨o.trace ++ o2.trace, o.created ++ o2.created, o2.fs, o2.clock, o2.err⟩

/-- Job data for the handler; steps is the list of step type strings. -/
structure JobData where
  jobServiceId : String
  tenantId : String
  invoiceIds : List String
  steps : List String

/-- Overall result of a handle run. -/
structure HandleOut where
  trace : List Update
  created : List String
  fs : Finset String
  clock : Nat
  result : Except String Unit

/-- The Completed update recorded after all invoices succeed. -/
def completedUpdate (jobId tenant pgJob : String) (n : Nat) : Update :=
  { jobId := jobId, tenant := tenant, pgBossJobId := pgJob, status := .Completed,
    stepResult := none, errorMsg := none,
    detailsMsg := some ("Successfully processed " ++ toString n ++ " invoice(s)") }

/-- The Failed update recorded by the outer catch with the original
(non contextual) error message. -/
def outerFailUpdate (jobId tenant pgJob errMsg : String) : Update :=
  { jobId := jobId, tenant := tenant, pgBossJobId := pgJob, status := .Failed,
    stepResult := none, errorMsg := some errMsg, detailsMsg := none }

/-- InvoiceEmailHandler.handle: argument guards (before the try, so no
update is recorded), the per-invoice loop, the outer catch recording a
second Failed update and rethrowing, and the Completed update on full
success. -/
def handle (env : Env) (pgBossJobId : String) (data : JobData)
    (fs : Finset String) (clock : Nat) : HandleOut :=
  if data.jobServiceId = "" then
    ⟨[], [], fs, clock, .error "jobServiceId is required in job data"⟩
  else if data.tenantId = "" then
    ⟨[], [], fs, clock, .error "Tenant ID is required"⟩
  else if data.invoiceIds.isEmpty then
    ⟨[], [], fs, clock, .error "No invoice IDs provided"⟩
  else
    let o := runLoop env data.jobServiceId data.tenantId pgBossJobId
      data.invoiceIds data.steps fs clock
    match o.err with
    | some m =>
      ⟨o.trace ++ [outerFailUpdate data.jobServiceId data.tenantId pgBossJobId m],
        o.created, o.fs, o.clock, .error m⟩
    | none =>
      ⟨o.trace ++ [completedUpdate data.jobServiceId data.tenantId pgBossJobId data.invoiceIds.length],
        o.created, o.fs, o.clock, .ok ()⟩

/-- The error outcome of processing one invoice, which depends only on
the environment, the invoice id and the two step types. -/
def invoiceErr (env : Env) (invoiceId : String) (pdfTy emailTy : Option String) : Option String :=
  (processBody env "" "" "" invoiceId pdfTy emailTy ∅ 0).err

/-- Environment in which every collaborator succeeds for invoice i1. -/
def envOk : Env where
  getInvoice := fun s => if s = "i1" then some ⟨"INV1", "co1"⟩ else none
  getCompany := fun s => if s = "co1" then some ⟨"Acme Inc", "gen@acme.test", "", "", "1 Way"⟩ else none
  getContact := fun _ => none
  generatePdf := fun _ _ => .ok "file1"
  downloadFile := fun _ => .ok ()
  sendInvoiceEmail := fun _ _ => .ok true

/-- Job data for one invoice with its two steps. -/
def dataOk : JobData := ⟨"job1", "t1", ["i1"], ["pdf_generation", "email_sending"]⟩

/-- Environment in which the email send of invoice i5 reports failure. -/
def envSendFalse : Env where
  getInvoice := fun s => if s = "i5" then some ⟨"INV5", "co5"⟩ else none
  getCompany := fun s => if s = "co5" then some ⟨"C5 Co", "gen@c5.test", "", "", ""⟩ else none
  getContact := fun _ => none
  generatePdf := fun _ _ => .ok "file5"
  downloadFile := fun _ => .ok ()
  sendInvoiceEmail := fun _ _ => .ok false

/-- Job data for the failing send run. -/
def dataSendFalse : JobData := ⟨"job5", "t5", ["i5"], ["pdf_generation", "email_sending"]⟩

/-- Company whose billing contact id is set but whose contact lookup
returns nothing, and whose only address is the billing email. -/
def compBC : Company := ⟨"C4 Co", "", "c1", "billing@c4.test", ""⟩

/-- Environment around compBC. -/
def envBC : Env where
  getInvoice := fun s => if s = "i4" then some ⟨"INV4", "co4"⟩ else none
  getCompany := fun s => if s = "co4" then some compBC else none
  getContact := fun _ => none
  generatePdf := fun _ _ => .ok "file4"
  downloadFile := fun _ => .ok ()
  sendInvoiceEmail := fun _ _ => .ok true

/-- Job data for the compBC run. -/
def dataBC : JobData := ⟨"job4", "t4", ["i4"], ["pdf_generation", "email_sending"]⟩

/-- The recipient resolution rule as the specification words it: the
billing-contact email (when a billing contact is configured) takes
precedence over an explicit billing email, which takes precedence over
the company general email; none yields no resolvable recipient. -/
def specRecipientEmail (env : Env) (company : Company) : Option String :=
  let contactEmail : Option String :=
    if company.billing_contact_id ≠ "" then
      match env.getContact company.billing_contact_id with
      | some contact => if contact.email = "" then none else some contact.email
      | none => none
    else none
  match contactEmail with
  | some e => some e
  | none =>
    if company.billing_email ≠ "" then some company.billing_email
    else if company.email ≠ "" then some company.email
    else none

end Pipeline

namespace Billing

/-- Invoice lifecycle states. -/
inductive InvoiceStatus
  | draft
  | sent
  | failed
deriving DecidableEq, Repr

/-- A catalog service: name and optional default rate. -/
structure Service where
  service_name : String
  default_rate : Option Nat
deriving DecidableEq, Repr

/-- Association of a plan to a service, with optional quantity
(default 1) and optional rate override. -/
structure PlanService where
  service : Service
  quantity : Option Nat
  custom_rate : Option Nat
deriving DecidableEq, Repr

/-- A time entry: linked service, billable minutes, approval, date. -/
structure TimeEntry where
  service : Service
  billable_duration : Nat
  approved : Bool
  entry_date : Nat
deriving DecidableEq, Repr

/-- A usage record: linked service, quantity, date. -/
structure UsageRecord where
  service : Service
  quantity : Nat
  usage_date : Nat
deriving DecidableEq, Repr

/-- A bucket-usage row: hours used against the allotment, the overage
rate, and the covered period. -/
structure BucketUsageRow where
  service_name : String
  hours_used : Nat
  total_hours : Nat
  overage_rate : Nat
  period_start : Nat
  period_end : Nat
deriving DecidableEq, Repr

/-- The type-specific content of a billing plan. -/
inductive PlanData
  | fixedPlan (services : List PlanService)
  | hourlyPlan (services : List PlanService) (entries : List TimeEntry)
  | usagePlan (records : List UsageRecord)
  | bucketPlan (rows : List BucketUsageRow)
deriving DecidableEq, Repr

/-- A billing plan. -/
structure BillingPlan where
  plan_name : String
  data : PlanData
deriving DecidableEq, Repr

/-- Assignment of a plan to the company. -/
structure PlanAssignment where
  plan : BillingPlan
  start_date : Nat
  is_active : Bool
deriving DecidableEq, Repr

/-- An invoice line item; all amounts are in the minor currency unit. -/
structure LineItem where
  description : String
  quantity : Nat
  unit_price : Nat
  net_amount : Nat
deriving DecidableEq, Repr

/-- Company tax context: optional company-specific override percentage,
optional default percentage, reverse-charge flag (effect on the amount
unresolved in the source, so unused here). -/
structure TaxCtx where
  rate_override : Option Nat
  rate_default : Option Nat
  is_reverse_charge : Bool
deriving DecidableEq, Repr

/-- An invoice as returned by the generation engine. -/
structure Invoice where
  invoice_id : String
  company_name : String
  company_id : String
  subtotal : Nat
  tax : Nat
  total : Nat
  status : InvoiceStatus
  finalized_at : Option Nat
  items : List LineItem
deriving DecidableEq, Repr

/-- Rate of a plan-service row: custom_rate when set, else the service
default rate. -/
def rateOf (ps : PlanService) : Option Nat :=
  match ps.custom_rate with
  | some r => some r
  | none => ps.service.default_rate

/-- Modelled from the spec: Fixed plan aggregation (the PlanAggregator
implementation is not among the inspected sources).  One line item per
plan-service row, net = quantity (default 1) times the resolved rate; a
missing rate is a rejection. -/
def fixedItems (services : List PlanService) : Except String (List LineItem) :=
  services.mapM fun ps =>
    match rateOf ps with
    | none => .error ("Undefined rate for service " ++ ps.service.service_name)
    | some r => .ok ⟨ps.service.service_name, ps.quantity.getD 1, r, ps.quantity.getD 1 * r⟩

/-- Rate used for an Hourly service: the plan-service override when the
plan lists the service, else the service default rate. -/
def hourlyRate (services : List PlanService) (sv : Service) : Option Nat :=
  match services.find? (fun ps => ps.service == sv) with
  | some ps => rateOf ps
  | none => sv.default_rate

/-- Modelled from the spec: Hourly plan aggregation.  Approved time
entries inside the period are grouped by service; quantity is the summed
billable minutes divided by 60; one line item per service. -/
def hourlyItems (services : List PlanService) (entries : List TimeEntry) (s e : Nat) :
    Except String (List LineItem) :=
  let es := entries.filter fun t =>
    t.approved && decide (s ≤ t.entry_date) && decide (t.entry_date < e)
  ((es.map (·.service)).dedup).mapM fun sv =>
    match hourlyRate services sv with
    | none => .error ("Undefined rate for service " ++ sv.service_name)
    | some r =>
      let q := ((es.filter (fun t => t.service == sv)).map (·.billable_duration)).sum / 60
      .ok ⟨sv.service_name, q, r, q * r⟩

/-- Modelled from the spec: Usage plan aggregation.  One line item per
usage record inside the period, never merged, priced at the service
default rate. -/
def usageItems (records : List UsageRecord) (s e : Nat) : Except String (List LineItem) :=
  (records.filter fun r => decide (s ≤ r.usage_date) && decide (r.usage_date < e)).mapM fun r =>
    match r.service.default_rate with
    | none => .error ("Undefined rate for service " ++ r.service.service_name)
    | some rate => .ok ⟨r.service.service_name, r.quantity, rate, r.quantity * rate⟩

/-- Whether a bucket-usage row overlaps the billing period. -/
def overlaps (row : BucketUsageRow) (s e : Nat) : Bool :=
  decide (row.period_start < e) && decide (s < row.period_end)

/-- Overage hours of a bucket-usage row: max(0, hours_used − total_hours)
by Nat subtraction. -/
def overageHours (row : BucketUsageRow) : Nat :=
  row.hours_used - row.total_hours

/-- Modelled from the spec: Bucket plan aggregation.  For each row
overlapping the period with positive overage, one line item with the
description suffixed with the overage marker, quantity the overage hours
and unit price the overage rate; no item otherwise. -/
def bucketItems (rows : List BucketUsageRow) (s e : Nat) : List LineItem :=
  (rows.filter fun row => overlaps row s e).filterMap fun row =>
    if 0 < overageHours row then
      some ⟨row.service_name ++ " (Overage)", overageHours row, row.overage_rate,
        overageHours row * row.overage_rate⟩
    else none

/-- Line items of one plan for the period. -/
def planItems (p : BillingPlan) (s e : Nat) : Except String (List LineItem) :=
  match p.data with
  | .fixedPlan services => fixedItems services
  | .hourlyPlan services entries => hourlyItems services entries s e
  | .usagePlan records => usageItems records s e
  | .bucketPlan rows => .ok (bucketItems rows s e)

/-- Whether an assignment is active within a period ending at periodEnd. -/
def activeInPeriod (a : PlanAssignment) (periodEnd : Nat) : Bool :=
  a.is_active && decide (a.start_date < periodEnd)

/-- Modelled from the spec: TaxCalculator rate selection; the
company-specific override takes precedence over the default, and with
neither the rate is zero. -/
def selectTaxRate (t : TaxCtx) : Nat :=
  match t.rate_override with
  | some p => p
  | none => t.rate_default.getD 0

/-- Modelled from the spec: TaxCalculator application, rounding to the
nearest minor currency unit. -/
def applyTax (pct subtotal : Nat) : Nat :=
  (subtotal * pct + 50) / 100

/-- Modelled from the spec: generateInvoice (its implementation is not
among the inspected sources; the error messages are the ones asserted by
billingInvoiceGeneration.test.ts).  Validates the period, gathers the
active assignments, aggregates the line items per plan, computes the tax
on the aggregate subtotal and returns a draft invoice. -/
def generateInvoice (companyId companyName : String) (assignments : List PlanAssignment)
    (taxCtx : TaxCtx) (periodStart periodEnd : Nat) (invoiceId : String) :
    Except String Invoice :=
  if periodEnd ≤ periodStart then
    .error "Invalid billing period: start date must be before end date"
  else
    let active := assignments.filter fun a => activeInPeriod a periodEnd
    if active.isEmpty then
      .error ("No active billing plans found for company " ++ companyId ++ " in the given period")
    else
      match active.mapM (fun a => planItems a.plan periodStart periodEnd) with
      | .error m => .error m
      | .ok itemLists =>
        .ok { invoice_id := invoiceId, company_name := companyName, company_id := companyId,
              subtotal := (itemLists.flatten.map (·.net_amount)).sum,
              tax := applyTax (selectTaxRate taxCtx) ((itemLists.flatten.map (·.net_amount)).sum),
              total := (itemLists.flatten.map (·.net_amount)).sum +
                applyTax (selectTaxRate taxCtx) ((itemLists.flatten.map (·.net_amount)).sum),
              status := .draft, finalized_at := none, items := itemLists.flatten }

/-- Modelled from the spec: finalizeInvoice (its implementation is not
among the inspected sources).  Looks the invoice up, rejects a missing or
non-draft invoice, and stamps finalized_at while moving draft to sent. -/
def finalizeInvoice (store : List (String × Invoice)) (invoiceId : String) (now : Nat) :
    Except String Invoice :=
  match store.lookup invoiceId with
  | none => .error ("Invoice " ++ invoiceId ++ " not found")
  | some inv =>
    match inv.status with
    | .draft => .ok { inv with status := .sent, finalized_at := some now }
    | _ => .error ("Invoice " ++ invoiceId ++ " is not in draft status")

/-- Fixed plan with one service priced 50000 and a 10 percent tax. -/
def planTax : BillingPlan := ⟨"Taxable Plan", .fixedPlan [⟨⟨"Taxable Service", some 50000⟩, some 1, none⟩]⟩

/-- Assignment of planTax, active from 0. -/
def asgTax : PlanAssignment := ⟨planTax, 0, true⟩

/-- Tax context with a 10 percent override. -/
def taxTen : TaxCtx := ⟨some 10, none, false⟩

/-- The invoice generated for asgTax over period 0..100. -/
def invTax : Invoice :=
  ⟨"inv1", "Test Company", "c1", 50000, 5000, 55000, .draft, none,
    [⟨"Taxable Service", 1, 50000, 50000⟩]⟩

/-- Fixed plan whose single service has no rate anywhere. -/
def planNoRate : BillingPlan := ⟨"Invalid Plan", .fixedPlan [⟨⟨"Service Without Rate", none⟩, none, none⟩]⟩

/-- Assignment of planNoRate, active from 0. -/
def asgNoRate : PlanAssignment := ⟨planNoRate, 0, true⟩

/-- Bucket-usage row with 45 hours used of a 40 hour allotment. -/
def rowOver : BucketUsageRow := ⟨"Consulting Hours", 45, 40, 7500, 0, 50⟩

end Billing

namespace Pipeline

theorem processBody_err_eq (env : Env) (jobId tenant pgJob invoiceId : String)
    (pdfTy emailTy : Option String) (fs : Finset String) (clock : Nat) :
    (processBody env jobId tenant pgJob invoiceId pdfTy emailTy fs clock).err =
      invoiceErr env invoiceId pdfTy emailTy := by
  unfold invoiceErr processBody
  repeat' split <;> try rfl

theorem processBody_trace_invoiceId (env : Env) (jobId tenant pgJob invoiceId : String)
    (pdfTy emailTy : Option String) (fs : Finset String) (clock : Nat) :
    ∀ u ∈ (processBody env jobId tenant pgJob invoiceId pdfTy emailTy fs clock).trace,
      ∀ sr, u.stepResult = some sr → sr.invoiceId = invoiceId := by
  unfold processBody
  repeat' split
  all_goals
    intro u hu sr hsr
    fin_cases hu <;>
      simp only [pdfStartResult, pdfStartStep, pdfCompleteResult, pdfCompleteStep,
        emailStartResult, emailStartStep, emailCompleteResult, emailCompleteStep,
        Option.some.injEq] at hsr <;>
      (cases hsr; rfl)

theorem processBody_success_count (env : Env) (jobId tenant pgJob invoiceId : String)
    (pdfTy emailTy : Option String) (fs : Finset String) (clock : Nat)
    (h : (processBody env jobId tenant pgJob invoiceId pdfTy emailTy fs clock).err = none) :
    (processBody env jobId tenant pgJob invoiceId pdfTy emailTy fs clock).trace.countP
      (fun u => u.stepResult.isSome) = 4 := by
  unfold processBody at *
  repeat' split at h
  all_goals simp_all [pdfStartResult, pdfStartStep, pdfCompleteResult, pdfCompleteStep,
    emailStartResult, emailStartStep, emailCompleteResult, emailCompleteStep,
    List.countP_cons]

theorem processBody_fs (env : Env) (jobId tenant pgJob invoiceId : String)
    (pdfTy emailTy : Option String) (fs : Finset String) (clock : Nat) :
    (∀ x, x ∉ fs → x ∉ (processBody env jobId tenant pgJob invoiceId pdfTy emailTy fs clock).fs) ∧
    (∀ x ∈ (processBody env jobId tenant pgJob invoiceId pdfTy emailTy fs clock).created,
      x ∉ (processBody env jobId tenant pgJob invoiceId pdfTy emailTy fs clock).fs) := by
  unfold processBody
  repeat' split
  all_goals
    constructor
    · intro x hx
      simp_all [Finset.mem_erase, Finset.mem_insert]
      try tauto
    · intro x hx
      simp_all [Finset.not_mem_erase]

theorem processOne_err_eq (env : Env) (jobId tenant pgJob invoiceId : String)
    (pdfTy emailTy : Option String) (fs : Finset String) (clock : Nat) :
    (processOne env jobId tenant pgJob invoiceId pdfTy emailTy fs clock).err =
      invoiceErr env invoiceId pdfTy emailTy := by
  unfold processOne
  rcases h : (processBody env jobId tenant pgJob invoiceId pdfTy emailTy fs clock).err with _ | m <;>
    simp only [h] <;>
    rw [← processBody_err_eq env jobId tenant pgJob invoiceId pdfTy emailTy fs clock, h]

theorem processOne_trace_invoiceId (env : Env) (jobId tenant pgJob invoiceId : String)
    (pdfTy emailTy : Option String) (fs : Finset String) (clock : Nat) :
    ∀ u ∈ (processOne env jobId tenant pgJob invoiceId pdfTy emailTy fs clock).trace,
      ∀ sr, u.stepResult = some sr → sr.invoiceId = invoiceId := by
  unfold processOne
  rcases h : (processBody env jobId tenant pgJob invoiceId pdfTy emailTy fs clock).err with _ | m <;>
    simp only [h]
  · exact processBody_trace_invoiceId env jobId tenant pgJob invoiceId pdfTy emailTy fs clock
  · intro u hu sr hsr
    rcases List.mem_append.mp hu with h1 | h2
    · exact processBody_trace_invoiceId env jobId tenant pgJob invoiceId pdfTy emailTy fs clock u h1 sr hsr
    · rcases List.mem_singleton.mp h2 with rfl
      simp [innerFailUpdate] at hsr

theorem processOne_success_eq (env : Env) (jobId tenant pgJob invoiceId : String)
    (pdfTy emailTy : Option String) (fs : Finset String) (clock : Nat)
    (h : invoiceErr env invoiceId pdfTy emailTy = none) :
    processOne env jobId tenant pgJob invoiceId pdfTy emailTy fs clock =
      processBody env jobId tenant pgJob invoiceId pdfTy emailTy fs clock := by
  have hb := processBody_err_eq env jobId tenant pgJob invoiceId pdfTy emailTy fs clock
  rw [h] at hb
  simp only [processOne, hb]

theorem processOne_count (env : Env) (jobId tenant pgJob invoiceId : String)
    (pdfTy emailTy : Option String) (fs : Finset String) (clock : Nat)
    (h : invoiceErr env invoiceId pdfTy emailTy = none) :
    (processOne env jobId tenant pgJob invoiceId pdfTy emailTy fs clock).trace.countP
      (fun u => u.stepResult.isSome) = 4 := by
  rw [processOne_success_eq env jobId tenant pgJob invoiceId pdfTy emailTy fs clock h]
  exact processBody_success_count env jobId tenant pgJob invoiceId pdfTy emailTy fs clock
    ((processBody_err_eq env jobId tenant pgJob invoiceId pdfTy emailTy fs clock).trans h)

theorem processOne_fail_mem (env : Env) (jobId tenant pgJob invoiceId : String)
    (pdfTy emailTy : Option String) (fs : Finset String) (clock : Nat) (m : String)
    (h : invoiceErr env invoiceId pdfTy emailTy = some m) :
    innerFailUpdate env jobId tenant pgJob invoiceId m ∈
      (processOne env jobId tenant pgJob invoiceId pdfTy emailTy fs clock).trace := by
  have hb := processBody_err_eq env jobId tenant pgJob invoiceId pdfTy emailTy fs clock
  rw [h] at hb
  simp only [processOne, hb]
  simp

theorem processOne_fs (env : Env) (jobId tenant pgJob invoiceId : String)
    (pdfTy emailTy : Option String) (fs : Finset String) (clock : Nat) :
    (∀ x, x ∉ fs → x ∉ (processOne env jobId tenant pgJob invoiceId pdfTy emailTy fs clock).fs) ∧
    (∀ x ∈ (processOne env jobId tenant pgJob invoiceId pdfTy emailTy fs clock).created,
      x ∉ (processOne env jobId tenant pgJob invoiceId pdfTy emailTy fs clock).fs) := by
  unfold processOne
  rcases h : (processBody env jobId tenant pgJob invoiceId pdfTy emailTy fs clock).err with _ | m <;>
    simp only [h] <;>
    exact processBody_fs env jobId tenant pgJob invoiceId pdfTy emailTy fs clock

theorem runLoop_success (env : Env) (jobId tenant pgJob : String) (ids : List String) :
    ∀ (steps : List String) (fs : Finset String) (clock : Nat),
      (runLoop env jobId tenant pgJob ids steps fs clock).err = none →
      (∀ k id, ids[k]? = some id → invoiceErr env id steps[2*k]? steps[2*k+1]? = none) ∧
      ∃ blocks : List (List Update),
        (runLoop env jobId tenant pgJob ids steps fs clock).trace = blocks.flatten ∧
        blocks.length = ids.length ∧
        ∀ (k : Nat) (b : List Update), blocks[k]? = some b →
          b.countP (fun u => u.stepResult.isSome) = 4 ∧
          ∀ u ∈ b, ∀ (sr : StepResult), u.stepResult = some sr → ids[k]? = some sr.invoiceId := by
  induction ids with
  | nil =>
    intro steps fs clock _
    refine ⟨by simp, [], by simp [runLoop], by simp, by simp⟩
  | cons id rest ih =>
    intro steps fs clock h
    rcases ho : (processOne env jobId tenant pgJob id steps[0]? steps[1]? fs clock).err with _ | m
    · have hie : invoiceErr env id steps[0]? steps[1]? = none := by
        rw [← processOne_err_eq env jobId tenant pgJob id steps[0]? steps[1]? fs clock, ho]
      have hred : runLoop env jobId tenant pgJob (id :: rest) steps fs clock =
          ⟨(processOne env jobId tenant pgJob id steps[0]? steps[1]? fs clock).trace ++
            (runLoop env jobId tenant pgJob rest (steps.drop 2)
              (processOne env jobId tenant pgJob id steps[0]? steps[1]? fs clock).fs
              (processOne env jobId tenant pgJob id steps[0]? steps[1]? fs clock).clock).trace,
           (processOne env jobId tenant pgJob id steps[0]? steps[1]? fs clock).created ++
            (runLoop env jobId tenant pgJob rest (steps.drop 2)
              (processOne env jobId tenant pgJob id steps[0]? steps[1]? fs clock).fs
              (processOne env jobId tenant pgJob id steps[0]? steps[1]? fs clock).clock).created,
           (runLoop env jobId tenant pgJob rest (steps.drop 2)
              (processOne env jobId tenant pgJob id steps[0]? steps[1]? fs clock).fs
              (processOne env jobId tenant pgJob id steps[0]? steps[1]? fs clock).clock).fs,
           (runLoop env jobId tenant pgJob rest (steps.drop 2)
              (processOne env jobId tenant pgJob id steps[0]? steps[1]? fs clock).fs
              (processOne env jobId tenant pgJob id steps[0]? steps[1]? fs clock).clock).clock,
           (runLoop env jobId tenant pgJob rest (steps.drop 2)
              (processOne env jobId tenant pgJob id steps[0]? steps[1]? fs clock).fs
              (processOne env jobId tenant pgJob id steps[0]? steps[1]? fs clock).clock).err⟩ := by
        simp only [runLoop, ho]
      rw [hred] at h ⊢
      obtain ⟨hsucc, blocks, htr, hlen, hblk⟩ := ih (steps.drop 2)
        (processOne env jobId tenant pgJob id steps[0]? steps[1]? fs clock).fs
        (processOne env jobId tenant pgJob id steps[0]? steps[1]? fs clock).clock h
      refine ⟨?_, (processOne env jobId tenant pgJob id steps[0]? steps[1]? fs clock).trace :: blocks,
        ?_, ?_, ?_⟩
      · intro k kid hk
        match k with
        | 0 =>
          simp only [List.getElem?_cons_zero, Option.some.injEq] at hk
          subst hk
          simpa using hie
        | Nat.succ k' =>
          rw [List.getElem?_cons_succ] at hk
          have := hsucc k' kid hk
          have e1 : 2 * (k' + 1) = 2 + 2 * k' := by ring
          have e2 : 2 * (k' + 1) + 1 = 2 + (2 * k' + 1) := by ring
          rw [e2, e1, ← List.getElem?_drop, ← List.getElem?_drop]
          exact this
      · simpa using htr
      · simpa using hlen
      · intro k b hb
        match k with
        | 0 =>
          simp only [List.getElem?_cons_zero, Option.some.injEq] at hb
          subst hb
          refine ⟨processOne_count env jobId tenant pgJob id steps[0]? steps[1]? fs clock hie, ?_⟩
          intro u hu sr hsr
          have := processOne_trace_invoiceId env jobId tenant pgJob id steps[0]? steps[1]? fs clock u hu sr hsr
          simp [this]
        | Nat.succ k' =>
          rw [List.getElem?_cons_succ] at hb
          obtain ⟨hc, hm⟩ := hblk k' b hb
          exact ⟨hc, fun u hu sr hsr => by
            rw [List.getElem?_cons_succ]
            exact hm u hu sr hsr⟩
    · exfalso
      have : (runLoop env jobId tenant pgJob (id :: rest) steps fs clock).err = some m := by
        simp only [runLoop, ho]
      rw [this] at h
      exact Option.noConfusion h

theorem runLoop_cons_err (env : Env) (jobId tenant pgJob id : String) (rest steps : List String)
    (fs : Finset String) (clock : Nat) (m : String)
    (ho : (processOne env jobId tenant pgJob id steps[0]? steps[1]? fs clock).err = some m) :
    runLoop env jobId tenant pgJob (id :: rest) steps fs clock =
      processOne env jobId tenant pgJob id steps[0]? steps[1]? fs clock := by
  simp only [runLoop, ho]

theorem runLoop_cons_ok (env : Env) (jobId tenant pgJob id : String) (rest steps : List String)
    (fs : Finset String) (clock : Nat)
    (ho : (processOne env jobId tenant pgJob id steps[0]? steps[1]? fs clock).err = none) :
    runLoop env jobId tenant pgJob (id :: rest) steps fs clock =
      ⟨(processOne env jobId tenant pgJob id steps[0]? steps[1]? fs clock).trace ++
        (runLoop env jobId tenant pgJob rest (steps.drop 2)
          (processOne env jobId tenant pgJob id steps[0]? steps[1]? fs clock).fs
          (processOne env jobId tenant pgJob id steps[0]? steps[1]? fs clock).clock).trace,
       (processOne env jobId tenant pgJob id steps[0]? steps[1]? fs clock).created ++
        (runLoop env jobId tenant pgJob rest (steps.drop 2)
          (processOne env jobId tenant pgJob id steps[0]? steps[1]? fs clock).fs
          (processOne env jobId tenant pgJob id steps[0]? steps[1]? fs clock).clock).created,
       (runLoop env jobId tenant pgJob rest (steps.drop 2)
          (processOne env jobId tenant pgJob id steps[0]? steps[1]? fs clock).fs
          (processOne env jobId tenant pgJob id steps[0]? steps[1]? fs clock).clock).fs,
       (runLoop env jobId tenant pgJob rest (steps.drop 2)
          (processOne env jobId tenant pgJob id steps[0]? steps[1]? fs clock).fs
          (processOne env jobId tenant pgJob id steps[0]? steps[1]? fs clock).clock).clock,
       (runLoop env jobId tenant pgJob rest (steps.drop 2)
          (processOne env jobId tenant pgJob id steps[0]? steps[1]? fs clock).fs
          (processOne env jobId tenant pgJob id steps[0]? steps[1]? fs clock).clock).err⟩ := by
  simp only [runLoop, ho]

theorem runLoop_failure (env : Env) (jobId tenant pgJob : String) (ids : List String) :
    ∀ (steps : List String) (fs : Finset String) (clock : Nat) (e : String),
      (runLoop env jobId tenant pgJob ids steps fs clock).err = some e →
      ∃ (k : Nat) (id : String), ids[k]? = some id ∧
        invoiceErr env id steps[2*k]? steps[2*k+1]? = some e ∧
        (∀ (j : Nat) (idj : String), j < k → ids[j]? = some idj →
          invoiceErr env idj steps[2*j]? steps[2*j+1]? = none) ∧
        innerFailUpdate env jobId tenant pgJob id e ∈
          (runLoop env jobId tenant pgJob ids steps fs clock).trace ∧
        (∀ u ∈ (runLoop env jobId tenant pgJob ids steps fs clock).trace,
          ∀ (sr : StepResult), u.stepResult = some sr → sr.invoiceId ∈ ids.take (k+1)) := by
  induction ids with
  | nil =>
    intro steps fs clock e h
    simp [runLoop] at h
  | cons id rest ih =>
    intro steps fs clock e h
    rcases ho : (processOne env jobId tenant pgJob id steps[0]? steps[1]? fs clock).err with _ | m
    · rw [runLoop_cons_ok env jobId tenant pgJob id rest steps fs clock ho] at h ⊢
      obtain ⟨k', id', hk', hie', hprev', hmem', hbound'⟩ := ih (steps.drop 2)
        (processOne env jobId tenant pgJob id steps[0]? steps[1]? fs clock).fs
        (processOne env jobId tenant pgJob id steps[0]? steps[1]? fs clock).clock e h
      refine ⟨k' + 1, id', ?_, ?_, ?_, ?_, ?_⟩
      · rw [List.getElem?_cons_succ]
        exact hk'
      · have e1 : 2 * (k' + 1) = 2 + 2 * k' := by ring
        have e2 : 2 * (k' + 1) + 1 = 2 + (2 * k' + 1) := by ring
        rw [e2, e1, ← List.getElem?_drop, ← List.getElem?_drop]
        exact hie'
      · intro j idj hj hjk
        match j with
        | 0 =>
          simp only [List.getElem?_cons_zero, Option.some.injEq] at hjk
          subst hjk
          have hie0 : invoiceErr env id steps[0]? steps[1]? = none := by
            rw [← processOne_err_eq env jobId tenant pgJob id steps[0]? steps[1]? fs clock, ho]
          simpa using hie0
        | Nat.succ j' =>
          rw [List.getElem?_cons_succ] at hjk
          have := hprev' j' idj (by omega) hjk
          have e1 : 2 * (j' + 1) = 2 + 2 * j' := by ring
          have e2 : 2 * (j' + 1) + 1 = 2 + (2 * j' + 1) := by ring
          rw [e2, e1, ← List.getElem?_drop, ← List.getElem?_drop]
          exact this
      · exact List.mem_append_right _ hmem'
      · intro u hu sr hsr
        rw [List.take_succ_cons]
        rcases List.mem_append.mp hu with h1 | h2
        · have := processOne_trace_invoiceId env jobId tenant pgJob id steps[0]? steps[1]? fs clock u h1 sr hsr
          rw [this]
          exact List.mem_cons_self _ _
        · exact List.mem_cons_of_mem _ (hbound' u h2 sr hsr)
    · rw [runLoop_cons_err env jobId tenant pgJob id rest steps fs clock m ho] at h ⊢
      have hme : m = e := Option.some.inj (ho.symm.trans h)
      subst hme
      have hie : invoiceErr env id steps[0]? steps[1]? = some m := by
        rw [← processOne_err_eq env jobId tenant pgJob id steps[0]? steps[1]? fs clock, ho]
      refine ⟨0, id, by simp, by simpa using hie, by omega, ?_, ?_⟩
      · exact processOne_fail_mem env jobId tenant pgJob id steps[0]? steps[1]? fs clock m hie
      · intro u hu sr hsr
        have := processOne_trace_invoiceId env jobId tenant pgJob id steps[0]? steps[1]? fs clock u hu sr hsr
        simp [this]

theorem runLoop_fs (env : Env) (jobId tenant pgJob : String) (ids : List String) :
    ∀ (steps : List String) (fs : Finset String) (clock : Nat),
      (∀ x, x ∉ fs → x ∉ (runLoop env jobId tenant pgJob ids steps fs clock).fs) ∧
      (∀ x ∈ (runLoop env jobId tenant pgJob ids steps fs clock).created,
        x ∉ (runLoop env jobId tenant pgJob ids steps fs clock).fs) := by
  induction ids with
  | nil =>
    intro steps fs clock
    constructor
    · intro x hx
      simpa [runLoop] using hx
    · intro x hx
      simp [runLoop] at hx
  | cons id rest ih =>
    intro steps fs clock
    rcases ho : (processOne env jobId tenant pgJob id steps[0]? steps[1]? fs clock).err with _ | m
    · rw [runLoop_cons_ok env jobId tenant pgJob id rest steps fs clock ho]
      obtain ⟨ih1, ih2⟩ := ih (steps.drop 2)
        (processOne env jobId tenant pgJob id steps[0]? steps[1]? fs clock).fs
        (processOne env jobId tenant pgJob id steps[0]? steps[1]? fs clock).clock
      obtain ⟨p1, p2⟩ := processOne_fs env jobId tenant pgJob id steps[0]? steps[1]? fs clock
      constructor
      · intro x hx
        exact ih1 x (p1 x hx)
      · intro x hx
        rcases List.mem_append.mp hx with h1 | h2
        · exact ih1 x (p2 x h1)
        · exact ih2 x h2
    · rw [runLoop_cons_err env jobId tenant pgJob id rest steps fs clock m ho]
      exact processOne_fs env jobId tenant pgJob id steps[0]? steps[1]? fs clock

theorem runLoop_fail_run (env : Env) (jobId tenant pgJob : String) (ids steps : List String)
    (fs : Finset String) (clock : Nat) (k : Nat) (id e : String)
    (hk : ids[k]? = some id)
    (hie : invoiceErr env id steps[2*k]? steps[2*k+1]? = some e)
    (hprev : ∀ (j : Nat) (idj : String), j < k → ids[j]? = some idj →
      invoiceErr env idj steps[2*j]? steps[2*j+1]? = none) :
    (runLoop env jobId tenant pgJob ids steps fs clock).err = some e ∧
    innerFailUpdate env jobId tenant pgJob id e ∈
      (runLoop env jobId tenant pgJob ids steps fs clock).trace := by
  rcases herr : (runLoop env jobId tenant pgJob ids steps fs clock).err with _ | e'
  · obtain ⟨hsucc, _⟩ := runLoop_success env jobId tenant pgJob ids steps fs clock herr
    rw [hsucc k id hk] at hie
    exact Option.noConfusion hie
  · obtain ⟨k', id', hk', hie', hprev', hmem', _⟩ :=
      runLoop_failure env jobId tenant pgJob ids steps fs clock e' herr
    have hkk : k = k' := by
      rcases Nat.lt_trichotomy k k' with hlt | heq | hgt
      · rw [hprev' k id hlt hk] at hie
        exact Option.noConfusion hie
      · exact heq
      · rw [hprev k' id' hgt hk'] at hie'
        exact Option.noConfusion hie'
    subst hkk
    rw [hk] at hk'
    have hid : id = id' := Option.some.inj hk'
    subst hid
    rw [hie] at hie'
    have hee : e = e' := Option.some.inj hie'
    subst hee
    exact ⟨rfl, hmem'⟩

theorem handle_guard_isEmpty (data : JobData) (hne : data.invoiceIds ≠ []) :
    ¬ (data.invoiceIds.isEmpty = true) := by
  simp [List.isEmpty_iff, hne]

theorem handle_ok_eq (env : Env) (pgJob : String) (data : JobData) (fs : Finset String) (clock : Nat)
    (hj : ¬ (data.jobServiceId = "")) (ht : ¬ (data.tenantId = "")) (hne : data.invoiceIds ≠ [])
    (he : (runLoop env data.jobServiceId data.tenantId pgJob data.invoiceIds data.steps fs clock).err = none) :
    handle env pgJob data fs clock =
      ⟨(runLoop env data.jobServiceId data.tenantId pgJob data.invoiceIds data.steps fs clock).trace ++
        [completedUpdate data.jobServiceId data.tenantId pgJob data.invoiceIds.length],
       (runLoop env data.jobServiceId data.tenantId pgJob data.invoiceIds data.steps fs clock).created,
       (runLoop env data.jobServiceId data.tenantId pgJob data.invoiceIds data.steps fs clock).fs,
       (runLoop env data.jobServiceId data.tenantId pgJob data.invoiceIds data.steps fs clock).clock,
       .ok ()⟩ := by
  simp only [handle, if_neg hj, if_neg ht, if_neg (handle_guard_isEmpty data hne), he]

theorem handle_err_eq (env : Env) (pgJob : String) (data : JobData) (fs : Finset String) (clock : Nat)
    (hj : ¬ (data.jobServiceId = "")) (ht : ¬ (data.tenantId = "")) (hne : data.invoiceIds ≠ [])
    (m : String)
    (he : (runLoop env data.jobServiceId data.tenantId pgJob data.invoiceIds data.steps fs clock).err = some m) :
    handle env pgJob data fs clock =
      ⟨(runLoop env data.jobServiceId data.tenantId pgJob data.invoiceIds data.steps fs clock).trace ++
        [outerFailUpdate data.jobServiceId data.tenantId pgJob m],
       (runLoop env data.jobServiceId data.tenantId pgJob data.invoiceIds data.steps fs clock).created,
       (runLoop env data.jobServiceId data.tenantId pgJob data.invoiceIds data.steps fs clock).fs,
       (runLoop env data.jobServiceId data.tenantId pgJob data.invoiceIds data.steps fs clock).clock,
       .error m⟩ := by
  simp only [handle, if_neg hj, if_neg ht, if_neg (handle_guard_isEmpty data hne), he]

theorem countP_flatten_const (p : Update → Bool) (c : Nat) :
    ∀ (bs : List (List Update)),
      (∀ (k : Nat) (b : List Update), bs[k]? = some b → b.countP p = c) →
      bs.flatten.countP p = c * bs.length := by
  intro bs
  induction bs with
  | nil => intro _; simp
  | cons b rest ih =>
    intro h
    have hb : b.countP p = c := h 0 b (by simp)
    have hr := ih (fun k bb hk => h (k + 1) bb (by rw [List.getElem?_cons_succ]; exact hk))
    simp only [List.flatten_cons, List.countP_append, hb, hr, List.length_cons]
    ring

/-- C1: on a hard failure at invoice k, the job is recorded Failed and no
step result in the whole trace belongs to an invoice after k (the loop
stops); when the whole batch succeeds the final recorded update is
Completed. -/
theorem handle_failFast_and_completed (env : Env) (pgJob : String) (data : JobData)
    (fs : Finset String) (clock : Nat)
    (hj : data.jobServiceId ≠ "") (ht : data.tenantId ≠ "") (hne : data.invoiceIds ≠ []) :
    (∀ e : String, (handle env pgJob data fs clock).result = Except.error e →
      (∃ u ∈ (handle env pgJob data fs clock).trace, u.status = JobStatus.Failed) ∧
      ∃ (k : Nat) (id : String), data.invoiceIds[k]? = some id ∧
        invoiceErr env id data.steps[2*k]? data.steps[2*k+1]? = some e ∧
        (∀ (j : Nat) (idj : String), j < k → data.invoiceIds[j]? = some idj →
          invoiceErr env idj data.steps[2*j]? data.steps[2*j+1]? = none) ∧
        ∀ u ∈ (handle env pgJob data fs clock).trace, ∀ (sr : StepResult),
          u.stepResult = some sr → sr.invoiceId ∈ data.invoiceIds.take (k+1)) ∧
    ((handle env pgJob data fs clock).result = Except.ok () →
      ∃ u, (handle env pgJob data fs clock).trace.getLast? = some u ∧
        u.status = JobStatus.Completed) := by
  rcases he : (runLoop env data.jobServiceId data.tenantId pgJob data.invoiceIds data.steps fs clock).err
    with _ | m
  · rw [handle_ok_eq env pgJob data fs clock hj ht hne he]
    constructor
    · intro e hre
      exact Except.noConfusion hre
    · intro _
      exact ⟨completedUpdate data.jobServiceId data.tenantId pgJob data.invoiceIds.length,
        by simp, rfl⟩
  · rw [handle_err_eq env pgJob data fs clock hj ht hne m he]
    constructor
    · intro e hre
      have hre2 : Except.error m = Except.error e := hre
      have hme : m = e := by injection hre2
      subst hme
      obtain ⟨k, id, hk, hie, hprev, _, hbound⟩ :=
        runLoop_failure env data.jobServiceId data.tenantId pgJob data.invoiceIds data.steps
          fs clock m he
      refine ⟨⟨outerFailUpdate data.jobServiceId data.tenantId pgJob m,
        List.mem_append_right _ (by simp), rfl⟩, k, id, hk, hie, hprev, ?_⟩
      intro u hu sr hsr
      rcases List.mem_append.mp hu with h1 | h2
      · exact hbound u h1 sr hsr
      · rcases List.mem_singleton.mp h2 with rfl
        simp [outerFailUpdate] at hsr
    · intro hre
      exact Except.noConfusion hre

/-- Witness for C1 at a concrete fully successful batch. -/
theorem handle_failFast_and_completed_witness :
    ∃ u, (handle envOk "pg" dataOk ∅ 0).trace.getLast? = some u ∧
      u.status = JobStatus.Completed :=
  (handle_failFast_and_completed envOk "pg" dataOk ∅ 0 (by decide) (by decide) (by decide)).2 rfl

/-- Counterexample for C2 as stated: a fully successful batch of one
invoice emits four step results, not two. -/
theorem handle_not_two_step_results_per_invoice :
    ¬ ((handle envOk "pg" dataOk ∅ 0).trace.countP (fun u => u.stepResult.isSome) =
        2 * dataOk.invoiceIds.length) := by
  decide

/-- C2 amended: on full success there are exactly four step-result
emissions per invoice (started and completed for each of the two steps),
laid out as one contiguous block per invoice in batch order, followed by
the Completed update. -/
theorem handle_four_step_results_per_invoice_in_order (env : Env) (pgJob : String)
    (data : JobData) (fs : Finset String) (clock : Nat)
    (hj : data.jobServiceId ≠ "") (ht : data.tenantId ≠ "") (hne : data.invoiceIds ≠ [])
    (hok : (handle env pgJob data fs clock).result = Except.ok ()) :
    (handle env pgJob data fs clock).trace.countP (fun u => u.stepResult.isSome) =
      4 * data.invoiceIds.length ∧
    ∃ blocks : List (List Update),
      (handle env pgJob data fs clock).trace =
        blocks.flatten ++ [completedUpdate data.jobServiceId data.tenantId pgJob data.invoiceIds.length] ∧
      blocks.length = data.invoiceIds.length ∧
      ∀ (k : Nat) (b : List Update), blocks[k]? = some b →
        ∀ u ∈ b, ∀ (sr : StepResult), u.stepResult = some sr →
          data.invoiceIds[k]? = some sr.invoiceId := by
  rcases he : (runLoop env data.jobServiceId data.tenantId pgJob data.invoiceIds data.steps fs clock).err
    with _ | m
  · obtain ⟨_, blocks, htr, hlen, hblk⟩ :=
      runLoop_success env data.jobServiceId data.tenantId pgJob data.invoiceIds data.steps fs clock he
    rw [handle_ok_eq env pgJob data fs clock hj ht hne he]
    constructor
    · simp only [htr, List.countP_append]
      rw [countP_flatten_const (fun u => u.stepResult.isSome) 4 blocks
        (fun k b hb => (hblk k b hb).1), hlen]
      simp [completedUpdate]
    · exact ⟨blocks, by rw [htr], hlen, fun k b hb => (hblk k b hb).2⟩
  · rw [handle_err_eq env pgJob data fs clock hj ht hne m he] at hok
    exact Except.noConfusion hok

/-- Witness for the amended C2 at a concrete fully successful batch. -/
theorem handle_four_step_results_per_invoice_in_order_witness :
    (handle envOk "pg" dataOk ∅ 0).trace.countP (fun u => u.stepResult.isSome) =
      4 * dataOk.invoiceIds.length ∧
    ∃ blocks : List (List Update),
      (handle envOk "pg" dataOk ∅ 0).trace =
        blocks.flatten ++ [completedUpdate dataOk.jobServiceId dataOk.tenantId "pg" dataOk.invoiceIds.length] ∧
      blocks.length = dataOk.invoiceIds.length ∧
      ∀ (k : Nat) (b : List Update), blocks[k]? = some b →
        ∀ u ∈ b, ∀ (sr : StepResult), u.stepResult = some sr →
          dataOk.invoiceIds[k]? = some sr.invoiceId :=
  handle_four_step_results_per_invoice_in_order envOk "pg" dataOk ∅ 0
    (by decide) (by decide) (by decide) rfl

/-- C3: every temporary file the delivery step created during a handle
run is absent from the filesystem when the run returns, on success and
on failure alike. -/
theorem handle_temp_file_removed (env : Env) (pgJob : String) (data : JobData)
    (fs : Finset String) (clock : Nat) :
    ∀ p ∈ (handle env pgJob data fs clock).created, p ∉ (handle env pgJob data fs clock).fs := by
  unfold handle
  split
  · intro p hp
    simp at hp
  · split
    · intro p hp
      simp at hp
    · split
      · intro p hp
        simp at hp
      · rcases he : (runLoop env data.jobServiceId data.tenantId pgJob data.invoiceIds data.steps fs clock).err
          with _ | m <;>
          simp only [he] <;>
          exact (runLoop_fs env data.jobServiceId data.tenantId pgJob data.invoiceIds
            data.steps fs clock).2

/-- Witness for C3: the concrete run creates the temporary file of
invoice INV1 and it is gone afterwards. -/
theorem handle_temp_file_removed_witness :
    "/tmp/invoice_INV1_0.pdf" ∈ (handle envOk "pg" dataOk ∅ 0).created ∧
    "/tmp/invoice_INV1_0.pdf" ∉ (handle envOk "pg" dataOk ∅ 0).fs :=
  ⟨by decide, handle_temp_file_removed envOk "pg" dataOk ∅ 0 "/tmp/invoice_INV1_0.pdf" (by decide)⟩

/-- Counterexample for C4 as stated: for compBC the rule in the claim
resolves the billing email, yet the handler hard-fails the invoice with
the no-valid-email error, because a set billing_contact_id whose lookup
returns no contact skips the billing_email branch. -/
theorem recipient_precedence_claim_false :
    specRecipientEmail envBC compBC = some "billing@c4.test" ∧
    (handle envBC "pg" dataBC ∅ 0).result =
      Except.error "No valid email address found for C4 Co (Invoice #INV4)" := by
  constructor
  · rfl
  · rfl

/-- C4 amended: the resolved recipient is the billing-contact email and
name when billing_contact_id is set and the lookup returns a contact;
when billing_contact_id is set but the lookup returns none the handler
falls back directly to the company general email; billing_email is used
only when billing_contact_id is not set; and the invoice hard-fails with
the no-valid-email error exactly when the email so resolved is empty. -/
theorem recipient_precedence_amended (env : Env) (c : Company) :
    (c.billing_contact_id ≠ "" → ∀ ct : Contact, env.getContact c.billing_contact_id = some ct →
      resolveRecipient env c = (ct.email, ct.full_name)) ∧
    (c.billing_contact_id ≠ "" → env.getContact c.billing_contact_id = none →
      resolveRecipient env c = (c.email, c.company_name)) ∧
    (c.billing_contact_id = "" → c.billing_email ≠ "" →
      resolveRecipient env c = (c.billing_email, c.company_name)) ∧
    (c.billing_contact_id = "" → c.billing_email = "" →
      resolveRecipient env c = (c.email, c.company_name)) ∧
    (∀ (jobId tenant pgJob invoiceId pt : String) (emailTy : Option String)
      (fs : Finset String) (clock : Nat) (inv : InvoiceDetail) (fid : String),
      env.getInvoice invoiceId = some inv → inv.invoice_number ≠ "" →
      env.getCompany inv.company_id = some c →
      env.generatePdf invoiceId inv.invoice_number = Except.ok fid →
      (resolveRecipient env c).1 = "" →
      (processBody env jobId tenant pgJob invoiceId (some pt) emailTy fs clock).err =
        some ("No valid email address found for " ++ c.company_name ++
          " (Invoice #" ++ inv.invoice_number ++ ")")) := by
  refine ⟨?_, ?_, ?_, ?_, ?_⟩
  · intro hset ct hct
    simp [resolveRecipient, hset, hct]
  · intro hset hct
    simp [resolveRecipient, hset, hct]
  · intro hunset hbe
    simp [resolveRecipient, hunset, hbe]
  · intro hunset hbe
    simp [resolveRecipient, hunset, hbe]
  · intro jobId tenant pgJob invoiceId pt emailTy fs clock inv fid hinv hn hcomp hpdf hr
    simp [processBody, hinv, hn, hcomp, hpdf, hr]

/-- Witness for the amended C4: the contact-missing fallback at the
concrete compBC environment. -/
theorem recipient_precedence_amended_witness :
    resolveRecipient envBC compBC = (compBC.email, compBC.company_name) :=
  (recipient_precedence_amended envBC compBC).2.1 (by decide) rfl

/-- C5: when invoice k is the first to hard-fail and its invoice and
company records resolve, the job is recorded Failed with the contextual
message naming the invoice number and the company name, and the original
error is re-raised to the caller. -/
theorem handle_failure_contextual_and_reraised (env : Env) (pgJob : String) (data : JobData)
    (fs : Finset String) (clock : Nat)
    (hj : data.jobServiceId ≠ "") (ht : data.tenantId ≠ "") (hne : data.invoiceIds ≠ [])
    (e : String) (k : Nat) (id : String) (inv : InvoiceDetail) (comp : Company)
    (hk : data.invoiceIds[k]? = some id)
    (hie : invoiceErr env id data.steps[2*k]? data.steps[2*k+1]? = some e)
    (hprev : ∀ (j : Nat) (idj : String), j < k → data.invoiceIds[j]? = some idj →
      invoiceErr env idj data.steps[2*j]? data.steps[2*j+1]? = none)
    (hinv : env.getInvoice id = some inv) (hn : inv.invoice_number ≠ "")
    (hcomp : env.getCompany inv.company_id = some comp) (hcn : comp.company_name ≠ "") :
    (handle env pgJob data fs clock).result = Except.error e ∧
    ∃ u ∈ (handle env pgJob data fs clock).trace, u.status = JobStatus.Failed ∧
      u.errorMsg = some (contextualMessage inv.invoice_number comp.company_name e) := by
  obtain ⟨he, hmem⟩ := runLoop_fail_run env data.jobServiceId data.tenantId pgJob
    data.invoiceIds data.steps fs clock k id e hk hie hprev
  rw [handle_err_eq env pgJob data fs clock hj ht hne e he]
  refine ⟨rfl, innerFailUpdate env data.jobServiceId data.tenantId pgJob id e,
    List.mem_append_left _ hmem, rfl, ?_⟩
  simp [innerFailUpdate, hinv, hcomp, hn, hcn]

/-- Witness for C5 at a concrete run whose email send reports failure. -/
theorem handle_failure_contextual_and_reraised_witness :
    (handle envSendFalse "pg" dataSendFalse ∅ 0).result =
      Except.error "Failed to send invoice email" ∧
    ∃ u ∈ (handle envSendFalse "pg" dataSendFalse ∅ 0).trace, u.status = JobStatus.Failed ∧
      u.errorMsg = some (contextualMessage "INV5" "C5 Co" "Failed to send invoice email") :=
  handle_failure_contextual_and_reraised envSendFalse "pg" dataSendFalse ∅ 0
    (by decide) (by decide) (by decide)
    "Failed to send invoice email" 0 "i5" ⟨"INV5", "co5"⟩ ⟨"C5 Co", "gen@c5.test", "", "", ""⟩
    rfl rfl (fun j idj hj _ => absurd hj (Nat.not_lt_zero j))
    rfl (by decide) rfl (by decide)

/-- C10: when billing_contact_id is set but the contact lookup returns
none, the handler resolves the company general email, independently of
billing_email, and when the general email is empty the invoice
hard-fails even though billing_email may be set. -/
theorem billing_email_skipped_when_contact_lookup_empty (env : Env) (c : Company)
    (hset : c.billing_contact_id ≠ "") (hmiss : env.getContact c.billing_contact_id = none) :
    resolveRecipient env c = (c.email, c.company_name) ∧
    (∀ be : String, resolveRecipient env { c with billing_email := be } = (c.email, c.company_name)) ∧
    (c.email = "" →
      ∀ (jobId tenant pgJob invoiceId pt : String) (emailTy : Option String)
        (fs : Finset String) (clock : Nat) (inv : InvoiceDetail) (fid : String),
        env.getInvoice invoiceId = some inv → inv.invoice_number ≠ "" →
        env.getCompany inv.company_id = some c →
        env.generatePdf invoiceId inv.invoice_number = Except.ok fid →
        (processBody env jobId tenant pgJob invoiceId (some pt) emailTy fs clock).err =
          some ("No valid email address found for " ++ c.company_name ++
            " (Invoice #" ++ inv.invoice_number ++ ")")) := by
  refine ⟨by simp [resolveRecipient, hset, hmiss], ?_, ?_⟩
  · intro be
    simp [resolveRecipient, hset, hmiss]
  · intro hce jobId tenant pgJob invoiceId pt emailTy fs clock inv fid hinv hn hcomp hpdf
    have hr : (resolveRecipient env c).1 = "" := by
      simp [resolveRecipient, hset, hmiss, hce]
    simp [processBody, hinv, hn, hcomp, hpdf, hr]

/-- Witness for C10 at the concrete compBC environment: the general
email is empty, billing_email is set, and the invoice hard-fails. -/
theorem billing_email_skipped_when_contact_lookup_empty_witness :
    resolveRecipient envBC compBC = (compBC.email, compBC.company_name) ∧
    (processBody envBC "job4" "t4" "pg" "i4" (some "pdf_generation")
        (some "email_sending") ∅ 0).err =
      some ("No valid email address found for " ++ compBC.company_name ++
        " (Invoice #INV4)") := by
  have H := billing_email_skipped_when_contact_lookup_empty envBC compBC (by decide) rfl
  exact ⟨H.1, H.2.2 rfl "job4" "t4" "pg" "i4" "pdf_generation" (some "email_sending")
    ∅ 0 ⟨"INV4", "co4"⟩ "file4" rfl (by decide) rfl rfl⟩

end Pipeline

namespace Billing
/-- Helper: a successful mapM means every element mapped successfully. -/
theorem mapM_ok_forall {α β : Type} (f : α → Except String β) :
    ∀ (l : List α) (ys : List β), l.mapM f = .ok ys → ∀ x ∈ l, ∃ y, f x = .ok y := by
  intro l
  induction l with
  | nil => intro ys _ x hx; exact absurd hx (List.not_mem_nil x)
  | cons a rest ih =>
    intro ys h x hx
    rw [List.mapM_cons] at h
    rcases hfa : f a with m | y
    · rw [hfa] at h
      simp [Bind.bind, Except.bind] at h
    · rw [hfa] at h
      rcases hrest : rest.mapM f with m | ys'
      · rw [hrest] at h
        simp [Bind.bind, Except.bind] at h
      · rcases List.mem_cons.mp hx with rfl | hx'
        · exact ⟨y, hfa⟩
        · exact ih ys' hrest x hx'

/-- C6: generateInvoice rejects a period whose start is not before its
end with the validation message, rejects a company with no active
assignment in the period with the message naming the company, rejects
when an active Fixed plan has a service with no custom and no default
rate, and in general rejects whenever an active plan fails to aggregate
(all aggregation failures are undefined rates). -/
theorem generateInvoice_rejections (companyId companyName : String)
    (assignments : List PlanAssignment) (taxCtx : TaxCtx) (s e : Nat) (invoiceId : String) :
    (e ≤ s → generateInvoice companyId companyName assignments taxCtx s e invoiceId =
      .error "Invalid billing period: start date must be before end date") ∧
    (s < e → (∀ a ∈ assignments, activeInPeriod a e = false) →
      generateInvoice companyId companyName assignments taxCtx s e invoiceId =
        .error ("No active billing plans found for company " ++ companyId ++ " in the given period")) ∧
    (s < e → ∀ a ∈ assignments, activeInPeriod a e = true →
      ∀ services : List PlanService, a.plan.data = PlanData.fixedPlan services →
      ∀ ps ∈ services, ps.custom_rate = none → ps.service.default_rate = none →
      ∃ m, generateInvoice companyId companyName assignments taxCtx s e invoiceId = .error m) ∧
    (s < e → ∀ a ∈ assignments, activeInPeriod a e = true →
      ∀ m, planItems a.plan s e = .error m →
      ∃ m2, generateInvoice companyId companyName assignments taxCtx s e invoiceId = .error m2) := by
  refine ⟨?_, ?_, ?_, ?_⟩
  · intro hle
    simp [generateInvoice, hle]
  · intro hlt hall
    have hno : ¬ (e ≤ s) := by omega
    have hfil : assignments.filter (fun a => activeInPeriod a e) = [] := by
      rw [List.filter_eq_nil_iff]
      intro a ha
      simp [hall a ha]
    simp [generateInvoice, hno, hfil]
  · intro hlt a ha hact services hdata ps hps hcr hdr
    have hno : ¬ (e ≤ s) := by omega
    have hmem : a ∈ assignments.filter (fun a => activeInPeriod a e) :=
      List.mem_filter.mpr ⟨ha, by simp [hact]⟩
    have hne : assignments.filter (fun a => activeInPeriod a e) ≠ [] :=
      List.ne_nil_of_mem hmem
    rcases hmm : (assignments.filter (fun a => activeInPeriod a e)).mapM
        (fun a => planItems a.plan s e) with m | itemLists
    · refine ⟨m, ?_⟩
      have hempty : ¬ ((assignments.filter (fun a => activeInPeriod a e)).isEmpty = true) := by
        simp [List.isEmpty_iff, hne]
      simp only [generateInvoice, if_neg hno, if_neg hempty, hmm]
    · exfalso
      obtain ⟨ys, hys⟩ := mapM_ok_forall (fun a => planItems a.plan s e) _ itemLists hmm a hmem
      rw [show planItems a.plan s e = fixedItems services by rw [planItems, hdata]] at hys
      obtain ⟨y, hy⟩ := mapM_ok_forall _ services ys hys ps hps
      rw [show rateOf ps = none by simp [rateOf, hcr, hdr]] at hy
      exact Except.noConfusion hy
  · intro hlt a ha hact m hm
    have hno : ¬ (e ≤ s) := by omega
    have hmem : a ∈ assignments.filter (fun a => activeInPeriod a e) :=
      List.mem_filter.mpr ⟨ha, by simp [hact]⟩
    have hne : assignments.filter (fun a => activeInPeriod a e) ≠ [] :=
      List.ne_nil_of_mem hmem
    rcases hmm : (assignments.filter (fun a => activeInPeriod a e)).mapM
        (fun a => planItems a.plan s e) with m2 | itemLists
    · refine ⟨m2, ?_⟩
      have hempty : ¬ ((assignments.filter (fun a => activeInPeriod a e)).isEmpty = true) := by
        simp [List.isEmpty_iff, hne]
      simp only [generateInvoice, if_neg hno, if_neg hempty, hmm]
    · exfalso
      obtain ⟨ys, hys⟩ := mapM_ok_forall (fun a => planItems a.plan s e) _ itemLists hmm a hmem
      rw [hm] at hys
      exact Except.noConfusion hys

/-- Witness for C6 at three concrete inputs: a backwards period, a
company with no assignments, and an active plan with a rate-less
service. -/
theorem generateInvoice_rejections_witness :
    generateInvoice "c0" "X" [] taxTen 5 3 "i" =
      .error "Invalid billing period: start date must be before end date" ∧
    generateInvoice "c0" "X" [] taxTen 0 10 "i" =
      .error "No active billing plans found for company c0 in the given period" ∧
    (∃ m, generateInvoice "c2" "Y" [asgNoRate] taxTen 0 10 "i" = .error m) ∧
    (∃ m, generateInvoice "c3" "Z" [asgNoRate] taxTen 0 10 "i" = .error m) := by
  refine ⟨?_, ?_, ?_, ?_⟩
  · exact (generateInvoice_rejections "c0" "X" [] taxTen 5 3 "i").1 (by omega)
  · exact (generateInvoice_rejections "c0" "X" [] taxTen 0 10 "i").2.1 (by omega)
      (fun a ha => absurd ha (List.not_mem_nil a))
  · exact (generateInvoice_rejections "c2" "Y" [asgNoRate] taxTen 0 10 "i").2.2.1 (by omega)
      asgNoRate (List.mem_singleton_self _) (by decide)
      [⟨⟨"Service Without Rate", none⟩, none, none⟩] rfl
      ⟨⟨"Service Without Rate", none⟩, none, none⟩ (List.mem_singleton_self _) rfl rfl
  · exact (generateInvoice_rejections "c3" "Z" [asgNoRate] taxTen 0 10 "i").2.2.2 (by omega)
      asgNoRate (List.mem_singleton_self _) (by decide)
      "Undefined rate for service Service Without Rate" rfl

/-- C7: every invoice generateInvoice produces satisfies subtotal equal
to the sum of its line item net amounts, tax equal to the selected rate
applied to the subtotal, and total equal to subtotal plus tax. -/
theorem generateInvoice_totals (companyId companyName : String)
    (assignments : List PlanAssignment) (taxCtx : TaxCtx) (s e : Nat) (invoiceId : String)
    (inv : Invoice)
    (h : generateInvoice companyId companyName assignments taxCtx s e invoiceId = .ok inv) :
    inv.subtotal = (inv.items.map (·.net_amount)).sum ∧
    inv.tax = applyTax (selectTaxRate taxCtx) inv.subtotal ∧
    inv.total = inv.subtotal + inv.tax := by
  simp only [generateInvoice] at h
  split at h
  · exact Except.noConfusion h
  · split at h
    · exact Except.noConfusion h
    · split at h
      · exact Except.noConfusion h
      · have h2 := Except.ok.inj h
        subst h2
        exact ⟨rfl, rfl, rfl⟩

/-- Witness for C7: the concrete 50000 subtotal at ten percent gives tax
5000 and total 55000, and the invariants hold there. -/
theorem generateInvoice_totals_witness :
    invTax.subtotal = 50000 ∧ invTax.tax = 5000 ∧ invTax.total = 55000 ∧
    (invTax.subtotal = (invTax.items.map (·.net_amount)).sum ∧
     invTax.tax = applyTax (selectTaxRate taxTen) invTax.subtotal ∧
     invTax.total = invTax.subtotal + invTax.tax) :=
  ⟨rfl, rfl, rfl,
    generateInvoice_totals "c1" "Test Company" [asgTax] taxTen 0 100 "inv1" invTax rfl⟩

/-- C8: the Bucket aggregator emits, for a row overlapping the period,
exactly one overage line item with the suffixed description, the overage
hours as quantity and the overage rate as unit price when the overage is
positive, and nothing when it is not; rows outside the period emit
nothing. -/
theorem bucketItems_overage (row : BucketUsageRow) (s e : Nat) :
    (∀ (name : String) (rows : List BucketUsageRow),
      planItems ⟨name, PlanData.bucketPlan rows⟩ s e = .ok (bucketItems rows s e)) ∧
    (overlaps row s e = true → row.total_hours < row.hours_used →
      bucketItems [row] s e =
        [⟨row.service_name ++ " (Overage)", row.hours_used - row.total_hours, row.overage_rate,
          (row.hours_used - row.total_hours) * row.overage_rate⟩]) ∧
    (overlaps row s e = true → row.hours_used ≤ row.total_hours →
      bucketItems [row] s e = []) ∧
    (overlaps row s e = false → bucketItems [row] s e = []) := by
  refine ⟨fun name rows => rfl, ?_, ?_, ?_⟩
  · intro hov hlt
    have hpos : 0 < overageHours row := Nat.sub_pos_of_lt hlt
    simp [bucketItems, hov, hpos, hlt, overageHours]
  · intro hov hle
    have hz : overageHours row = 0 := Nat.sub_eq_zero_of_le hle
    simp [bucketItems, hov, hz]
  · intro hov
    simp [bucketItems, hov]

/-- Witness for C8 at the concrete 45-of-40 row: one overage item of
five hours at 7500, and the no-overage case of the same allotment. -/
theorem bucketItems_overage_witness :
    bucketItems [rowOver] 0 100 = [⟨"Consulting Hours (Overage)", 5, 7500, 37500⟩] ∧
    bucketItems [⟨"Consulting Hours", 40, 40, 7500, 0, 50⟩] 0 100 = [] :=
  ⟨(bucketItems_overage rowOver 0 100).2.1 rfl (by decide),
   (bucketItems_overage ⟨"Consulting Hours", 40, 40, 7500, 0, 50⟩ 0 100).2.2.1 rfl (by decide)⟩

/-- C9: finalizeInvoice moves a stored draft invoice to sent stamping
finalized_at, rejects a stored non-draft invoice, rejects a missing
invoice id, succeeds only from draft and only into sent, and
generateInvoice creates invoices in draft with no finalized_at, so
finalize is the only transition out of draft in this subsystem. -/
theorem finalizeInvoice_spec (store : List (String × Invoice)) (invoiceId : String) (now : Nat) :
    (∀ inv : Invoice, store.lookup invoiceId = some inv → inv.status = .draft →
      finalizeInvoice store invoiceId now =
        .ok { inv with status := .sent, finalized_at := some now }) ∧
    (∀ inv : Invoice, store.lookup invoiceId = some inv → inv.status ≠ .draft →
      ∃ m, finalizeInvoice store invoiceId now = .error m) ∧
    (store.lookup invoiceId = none → ∃ m, finalizeInvoice store invoiceId now = .error m) ∧
    (∀ inv2 : Invoice, finalizeInvoice store invoiceId now = .ok inv2 →
      inv2.status = .sent ∧ inv2.finalized_at = some now ∧
      ∃ inv : Invoice, store.lookup invoiceId = some inv ∧ inv.status = .draft) ∧
    (∀ (companyId companyName : String) (assignments : List PlanAssignment) (taxCtx : TaxCtx)
      (s e : Nat) (iid : String) (inv : Invoice),
      generateInvoice companyId companyName assignments taxCtx s e iid = .ok inv →
      inv.status = .draft ∧ inv.finalized_at = none) := by
  refine ⟨?_, ?_, ?_, ?_, ?_⟩
  · intro inv hl hd
    simp [finalizeInvoice, hl, hd]
  · intro inv hl hd
    refine ⟨"Invoice " ++ invoiceId ++ " is not in draft status", ?_⟩
    rcases hst : inv.status with _ | _ | _
    · exact absurd hst hd
    · simp [finalizeInvoice, hl, hst]
    · simp [finalizeInvoice, hl, hst]
  · intro hl
    exact ⟨"Invoice " ++ invoiceId ++ " not found", by simp [finalizeInvoice, hl]⟩
  · intro inv2 h
    rcases hl : store.lookup invoiceId with _ | inv
    · simp only [finalizeInvoice, hl] at h
      exact Except.noConfusion h
    · rcases hst : inv.status with _ | _ | _
      · simp only [finalizeInvoice, hl, hst] at h
        have h2 := Except.ok.inj h
        subst h2
        exact ⟨rfl, rfl, inv, rfl, hst⟩
      · simp only [finalizeInvoice, hl, hst] at h
        exact Except.noConfusion h
      · simp only [finalizeInvoice, hl, hst] at h
        exact Except.noConfusion h
  · intro companyId companyName assignments taxCtx s e iid inv h
    simp only [generateInvoice] at h
    split at h
    · exact Except.noConfusion h
    · split at h
      · exact Except.noConfusion h
      · split at h
        · exact Except.noConfusion h
        · have h2 := Except.ok.inj h
          subst h2
          exact ⟨rfl, rfl⟩

/-- Witness for C9: finalizing the stored draft invTax stamps time 7 and
moves it to sent. -/
theorem finalizeInvoice_spec_witness :
    finalizeInvoice [("inv1", invTax)] "inv1" 7 =
      .ok { invTax with status := .sent, finalized_at := some 7 } :=
  (finalizeInvoice_spec [("inv1", invTax)] "inv1" 7).1 invTax rfl rfl

end Billing
